import Mathlib

/-!
# Verification of the SillyTavern MCP Server plugin

A shallow embedding, in Lean 4, of the plugin's core: the tool-result
unwrapping heuristic (`findContentLevel`), the tools/call response
dispatch, the control-plane route handlers over the persisted settings
document, the connection registry, the JSON-RPC id allocator, and the
connect/handshake guards.  Each definition transcribes the corresponding
TypeScript function; effects (file writes, the process registry, the
child process, HTTP responses) are made explicit as values, and the
external collaborators (the JSON-Schema validator, the spawned server's
replies) are passed in as oracles.
-/

namespace Mcp

/-- A JSON value, as produced by `JSON.parse` on a message line: null,
booleans, numbers, strings, arrays, and objects as ordered key/value
lists (`JSON.parse` keeps at most one entry per key). -/
inductive Json where
  | null
  | bool (b : Bool)
  | num (n : Int)
  | str (s : String)
  | arr (elems : List Json)
  | obj (members : List (String × Json))
deriving Inhabited

namespace Json

/-- JavaScript truthiness of a JSON value: `null`, `false`, `0` and `""`
are falsy, every other JSON value (all arrays and objects included) is
truthy. -/
def truthy : Json → Bool
  | .null => false
  | .bool b => b
  | .num n => n != 0
  | .str s => s != ""
  | .arr _ => true
  | .obj _ => true

/-- `opt?.truthy`: truthiness of a possibly-absent value; an absent
property (`undefined`) is falsy. -/
def truthyOpt : Option Json → Bool
  | none => false
  | some j => truthy j

/-- JavaScript property access `j.k` restricted to JSON values: defined
only when `j` is an object with an own property `k` (string indexing of
arrays and strings is handled separately where the source uses it).
`none` plays the role of `undefined`. -/
def get (j : Json) (k : String) : Option Json :=
  match j with
  | .obj members => members.lookup k
  | _ => none

/-- JavaScript `x[0]` as used in `result.content?.[0]`: for an array the
first element, for a string the first character (as a one-character
string), for an object its own property named `"0"`; `undefined`
otherwise. -/
def index0 : Json → Option Json
  | .arr (x :: _) => some x
  | .arr [] => none
  | .str s =>
    match s.data with
    | c :: _ => some (.str (String.mk [c]))
    | [] => none
  | .obj members => members.lookup "0"
  | _ => none

/-- JavaScript `a || b` on a possibly-absent left operand: the left value
when it is present and truthy, otherwise `b`. -/
def orElse (a : Option Json) (b : Json) : Json :=
  match a with
  | some v => if truthy v then v else b
  | none => b

end Json

/-! ## The tool-result unwrapping heuristic (`findContentLevel`)

Transcribed from `handleMessage` in the MCP client:

```
function findContentLevel(obj: any): any {
  if (obj?.content === undefined) {
    // Check if there is only one property
    if (Object.keys(obj).length === 1) {
      return findContentLevel(obj[Object.keys(obj)[0]]);
    }
    return obj;
  }
  return obj;
}
```

The JavaScript semantics of the two primitives, on JSON values:

* `obj?.content` is `undefined` exactly when `obj` is not an object with
  an own `content` property (optional chaining makes it `undefined` for
  `null` as well, without throwing);
* `Object.keys(obj)` is the list of own enumerable keys: the member names
  of an object, the index strings `"0" … "n-1"` of an array or a string,
  the empty list for a boolean or a number — and a `TypeError` for
  `null`.

So the function recurses on the single member value of a one-member
`content`-less object, on the single element of a one-element array, and
on the (identical) one-character string when given a one-character
string; the last case never terminates.  The recursion is modelled with
an explicit fuel counter. -/

/-- Outcome of running `findContentLevel` with a given amount of fuel. -/
inductive JsOutcome where
  | val (j : Json)
  /-- The run threw a `TypeError` (`Object.keys(null)`). -/
  | typeErr
  /-- The fuel ran out: the run had not returned after that many calls. -/
  | outOfFuel
deriving Inhabited

/-- `findContentLevel`, with fuel bounding the number of calls. -/
def findContentLevel : Nat → Json → JsOutcome
  | 0, _ => .outOfFuel
  | fuel + 1, j =>
    match j with
    | .null => .typeErr
    | .bool b => .val (.bool b)
    | .num n => .val (.num n)
    | .str s =>
      if s.length = 1 then findContentLevel fuel (.str s)
      else .val (.str s)
    | .arr elems =>
      match elems with
      | [x] => findContentLevel fuel x
      | _ => .val (.arr elems)
    | .obj members =>
      if (members.lookup "content").isSome then .val (.obj members)
      else
        match members with
        | [(_, v)] => findContentLevel fuel v
        | _ => .val (.obj members)

/-- `findContentLevel` terminates on `x`: some amount of fuel suffices
for the run to return a value. -/
def Unwraps (x : Json) : Prop := ∃ fuel y, findContentLevel fuel x = .val y

/-- One step of the descent `findContentLevel` performs: from a node
with no `content` property and exactly one own key to the value at that
key. -/
def descendStep (j : Json) : Option Json :=
  match j with
  | .null => none
  | .bool _ => none
  | .num _ => none
  | .str s => if s.length = 1 then some (.str s) else none
  | .arr [x] => some x
  | .arr _ => none
  | .obj members =>
    if (members.lookup "content").isSome then none
    else
      match members with
      | [(_, v)] => some v
      | _ => none

/-- `j` has a `content` field in the sense of the source's
`obj?.content !== undefined` test. -/
def hasContent (j : Json) : Bool :=
  (Json.get j "content").isSome

/-- The reflexive-transitive descent relation: `Descends x y` holds when
`y` is reachable from `x` by zero or more `descendStep`s. -/
inductive Descends : Json → Json → Prop
  | refl (x : Json) : Descends x x
  | step {x y z : Json} : descendStep x = some y → Descends y z → Descends x z

/-! ## Error codes

The numeric values of the source's `ErrorCode` enum. -/

namespace ErrorCode

def ConnectionClosed : Int := -32000
def RequestTimeout : Int := -32001
def UnsupportedProtocolVersion : Int := -32002
def ParseError : Int := -32700
def InvalidRequest : Int := -32600
def MethodNotFound : Int := -32601
def InvalidParams : Int := -32602
def InternalError : Int := -32603

end ErrorCode

/-! ## The tools/call branch of `handleMessage`

```
const result = findContentLevel(message.result);
if (result?.isError) {
  pending.reject(new McpError(ErrorCode.InternalError,
    result.content?.[0]?.text || 'Tool call failed', result));
  return;
}
pending.resolve(result);
```
-/

/-- `result.content?.[0]?.text`: the `text` property of the first entry
of the node's `content` field, each `?.` propagating absence. -/
def firstContentText (y : Json) : Option Json :=
  (Json.get y "content").bind fun c =>
    (Json.index0 c).bind fun e => Json.get e "text"

/-- What the client does with the waiter of a matched `tools/call`
response. -/
inductive ToolCallOutcome where
  | resolve (v : Json)
  | reject (code : Int) (message : Json) (data : Json)
  /-- `findContentLevel` threw a `TypeError`. -/
  | jsError
  /-- `findContentLevel` did not return within the given fuel. -/
  | noReturn
deriving Inhabited

/-- The tools/call arm of `handleMessage`, applied to the matched
response's `result` field. -/
def handleToolCallResult (fuel : Nat) (res : Json) : ToolCallOutcome :=
  match findContentLevel fuel res with
  | .outOfFuel => .noReturn
  | .typeErr => .jsError
  | .val result =>
    if Json.truthyOpt (Json.get result "isError") then
      .reject ErrorCode.InternalError
        (Json.orElse (firstContentText result) (.str "Tool call failed")) result
    else
      .resolve result

/-! ## The persisted settings document

`mcp_settings.json`, as read by `readMcpSettings`: the four top-level
records, each modelled as an ordered key/value list (objects produced by
`JSON.parse` hold at most one entry per key).  The `delete` / indexed
assignment operators of JavaScript objects are `jsRecordDelete` /
`jsRecordSet`. -/

/-- JavaScript `obj[k] = v` on a record: replaces the entry in place
when the key is present, appends it otherwise. -/
def jsRecordSet {κ α : Type} [DecidableEq κ] : List (κ × α) → κ → α → List (κ × α)
  | [], k, v => [(k, v)]
  | (k', v') :: rest, k, v =>
    if k' = k then (k, v) :: rest else (k', v') :: jsRecordSet rest k v

/-- JavaScript `delete obj[k]` on a record: removes the entry with that
key. -/
def jsRecordDelete {κ α : Type} [DecidableEq κ] (l : List (κ × α)) (k : κ) : List (κ × α) :=
  l.filter (fun p => p.1 != k)

/-- JavaScript `a || b` for an optional string, as in
`config.type || 'stdio'`: the stored string when present and nonempty
(truthy), the default otherwise. -/
def jsStrOr (a : Option String) (b : String) : String :=
  match a with
  | some s => if s = "" then b else s
  | none => b

/-- An `McpServerEntry` as it appears in a `POST /servers` body and in
`mcpServers`: `type` and `command` may be absent from the raw body. The
`args`/`env`/`url` fields do not steer any handler branch a claim is
about and are carried opaquely. -/
structure McpServerEntry where
  type : Option String := none
  command : Option String := none
  args : List String := []
  env : List (String × String) := []
  url : Option String := none
deriving Repr, DecidableEq, Inhabited

/-- The settings document (`McpServerDictionary`), after
`readMcpSettings` has applied its migration defaults.  Cached tools are
stored verbatim as the JSON the server returned. -/
structure McpSettings where
  mcpServers : List (String × McpServerEntry) := []
  disabledTools : List (String × List String) := []
  disabledServers : List String := []
  cachedTools : List (String × Json) := []
deriving Inhabited

/-! ## Control-plane route handlers (`mcp.ts`)

Each handler is a pure function of the request, the document the
handler read, and (where relevant) the client registry; the outcome
records the HTTP status of the first response sent, the persisted
document, and how many `writeMcpSettings` calls ran. -/

/-- Outcome of the `POST /servers` handler. -/
structure PostServersOutcome where
  status : Nat
  settings : McpSettings
  writes : Nat

/-- The `POST /servers` handler.  Validation follows the source; note
that the duplicate-name branch sends the 409 response **without
returning**, so execution falls through to the assignment
`settings.mcpServers[name] = config` and to `writeMcpSettings` (the
later `response.json({})` then throws on the already-sent response,
inside the try/catch, after the file write has happened). -/
def postServersRoute (name? : Option String) (config? : Option McpServerEntry)
    (s : McpSettings) : PostServersOutcome :=
  match name? with
  | none => ⟨400, s, 0⟩
  | some name =>
    if name = "" then ⟨400, s, 0⟩
    else match config? with
      | none => ⟨400, s, 0⟩
      | some config =>
        let transportType := jsStrOr config.type "stdio"
        if transportType = "stdio" then
          match config.command with
          | none => ⟨400, s, 0⟩
          | some cmd =>
            if cmd = "" then ⟨400, s, 0⟩
            else
              let dup := (s.mcpServers.lookup name).isSome
              let s' := { s with mcpServers := jsRecordSet s.mcpServers name config }
              ⟨if dup then 409 else 200, s', 1⟩
        else ⟨400, s, 0⟩

/-- Outcome of the `DELETE /servers/:name` handler (the registry side —
stopping a running client — does not touch the document and is outside
this model). -/
structure DeleteServerOutcome where
  settings : McpSettings
  writes : Nat
  status : Nat

/-- The `DELETE /servers/:name` handler: only when `mcpServers[name]`
exists are the three per-name entries deleted and the document
rewritten. -/
def deleteServerRoute (name : String) (s : McpSettings) : DeleteServerOutcome :=
  if (s.mcpServers.lookup name).isSome then
    ⟨{ s with
        mcpServers := jsRecordDelete s.mcpServers name,
        disabledTools := jsRecordDelete s.disabledTools name,
        cachedTools := jsRecordDelete s.cachedTools name }, 1, 200⟩
  else ⟨s, 0, 200⟩

/-! ## The connection registry (`startMcpServer`) -/

/-- Outcome of `startMcpServer`: the registry afterwards, whether a new
`McpClient` was constructed, whether its `connect()` handshake ran, and
the code of the thrown `McpError` when the call threw.  Clients are
identified by opaque numbers. -/
structure StartOutcome where
  registry : List (String × Nat)
  constructed : Bool
  handshake : Bool
  error : Option Int
deriving Repr, DecidableEq

/-- `startMcpServer(serverName, config)`.  When the name is already in
the client map it logs a warning and **returns normally** (there is no
`AlreadyRunning` error code in the source).  Otherwise, for the stdio
transport, it constructs a client (`newClient`) and awaits `connect()`,
whose success is the `connectOk` oracle; on failure it throws
`ConnectionClosed` and inserts nothing, on success it inserts the
client.  Non-stdio transports throw `InvalidRequest`. -/
def startMcpServer (reg : List (String × Nat)) (serverName : String)
    (config : McpServerEntry) (newClient : Nat) (connectOk : Bool) : StartOutcome :=
  if (reg.lookup serverName).isSome then
    ⟨reg, false, false, none⟩
  else
    let transportType := jsStrOr config.type "stdio"
    if transportType = "stdio" then
      if connectOk then ⟨jsRecordSet reg serverName newClient, true, true, none⟩
      else ⟨reg, true, true, some ErrorCode.ConnectionClosed⟩
    else ⟨reg, false, false, some ErrorCode.InvalidRequest⟩

/-! ## The tool-cache coordinator (`reloadToolCache`) -/

/-- Outcome of `reloadToolCache`: whether the server is in the client
map afterwards, the persisted document, the number of
`writeMcpSettings` calls, the number of `stopMcpServer` calls, and
whether the success branch (`{ tools }`) or the catch branch
(`{ error, tools: [] }`) returned. -/
structure ReloadOutcome where
  running : Bool
  settings : McpSettings
  writes : Nat
  stopCalls : Nat
  ok : Bool

/-- `reloadToolCache(serverName, settings, directories)`.  `running0`
says whether the client map already held the name (`wasRunning`);
`startOk` is the outcome of the temporary `startMcpServer` (consulted
only when not running; `false` covers every way it can throw, including
an absent `mcpServers[serverName]`); `listResult` is the outcome of
`client.listTools()`. -/
def reloadToolCache (running0 : Bool) (s : McpSettings) (serverName : String)
    (startOk : Bool) (listResult : Except Int Json) : ReloadOutcome :=
  let wasRunning := running0
  if !wasRunning && !startOk then
    -- startMcpServer threw before inserting: the catch block's cleanup
    -- guard `mcpClients.has(serverName)` is false, so nothing stops
    ⟨false, s, 0, 0, false⟩
  else
    -- the client is in the map: it was already running, or the start
    -- inserted it
    match listResult with
    | .error _ =>
      -- listTools rejected: catch block; stop iff we started it
      if wasRunning then ⟨true, s, 0, 0, false⟩ else ⟨false, s, 0, 1, false⟩
    | .ok tools =>
      let newCache := Json.orElse (Json.get tools "tools") (.arr [])
      let s' := { s with cachedTools := jsRecordSet s.cachedTools serverName newCache }
      -- cache written and persisted, then stop iff we started it
      if wasRunning then ⟨true, s', 1, 0, true⟩ else ⟨false, s', 1, 1, true⟩

/-! ## The call-tool route (`POST /servers/:name/call-tool`) -/

/-- `typeof x === 'object' && x` for a JSON value: arrays and (non-null)
objects pass, primitives and `null` do not. -/
def jsIsNonNullObject : Json → Bool
  | .obj _ => true
  | .arr _ => true
  | _ => false

/-- `settings.cachedTools[name]?.find(t => t.name === toolName)`:
the first entry of the cached tool array whose `name` property is
exactly the given string. -/
def findCachedTool (cached : Option Json) (toolName : String) : Option Json :=
  match cached with
  | some (.arr elems) =>
    elems.find? (fun t =>
      match Json.get t "name" with
      | some (.str s) => s == toolName
      | _ => false)
  | _ => none

/-- Outcome of the call-tool route: HTTP status, the `code` field of an
error body when one is included, and whether the JSON-RPC `tools/call`
request was actually sent. -/
structure CallToolOutcome where
  status : Nat
  code : Option Int
  invoked : Bool
deriving Repr, DecidableEq

/-- The `POST /servers/:name/call-tool` handler.  `validate` is the
external jsonschema validator (`new Validator().validate(args, schema,
{ throwError: true })` succeeds iff it returns `true` here); its throw
is a jsonschema `ValidationError`, **not** an `McpError`, so the
handler's catch maps it to a 500 body with `code =
ErrorCode.InternalError`.  `rpc` is the outcome of the
`tools/call` request when it is sent (`error` = a thrown/rejected
`McpError` with that code, mapped to a 500 body carrying it). -/
def callToolRoute (running : Bool) (s : McpSettings) (name : String)
    (toolName? : Option String) (args? : Option Json)
    (validate : Json → Option Json → Bool) (rpc : Except Int Json) : CallToolOutcome :=
  if !running then ⟨400, none, false⟩
  else match toolName? with
  | none => ⟨400, none, false⟩
  | some toolName =>
    if toolName = "" then ⟨400, none, false⟩
    else match args? with
    | none => ⟨400, none, false⟩
    | some args =>
      if !jsIsNonNullObject args then ⟨400, none, false⟩
      else
        let disabledTools := (s.disabledTools.lookup name).getD []
        if disabledTools.contains toolName then ⟨403, none, false⟩
        else match findCachedTool (s.cachedTools.lookup name) toolName with
        | none => ⟨404, none, false⟩
        | some tool =>
          let schema := Json.get tool "inputSchema"
          if !validate args schema then ⟨500, some ErrorCode.InternalError, false⟩
          else match rpc with
          | .ok _ => ⟨200, none, true⟩
          | .error code => ⟨500, some code, true⟩

/-! ## The JSON-RPC id allocator (`sendRequest`) -/

/-- The correlator state a `sendRequest` call touches: the
`requestId` counter and the pending-request table (id to originating
method). -/
structure ClientState where
  requestId : Nat
  pending : List (Nat × String)

/-- A freshly constructed client: `requestId = 0`, no pending
requests. -/
def initialClientState : ClientState := ⟨0, []⟩

/-- The id-allocation step of `sendRequest`: `const id =
++this.requestId` and `this.pendingRequests.set(id, {resolve, reject,
method})`; returns the updated state and the id the request carries. -/
def sendRequest (st : ClientState) (method : String) : ClientState × Nat :=
  let id := st.requestId + 1
  ({ requestId := id, pending := jsRecordSet st.pending id method }, id)

/-- The ids carried by a sequence of successive `sendRequest` calls
from a given state. -/
def sendIds : ClientState → List String → List Nat
  | _, [] => []
  | st, m :: ms =>
    let r := sendRequest st m
    r.2 :: sendIds r.1 ms

/-! ## The `connect()` guards (`McpClient.connect`) -/

/-- The client state `connect()` inspects and updates: the
`isConnected` flag, the in-flight `initializePromise` (identified by an
opaque number when present), a counter of `child_process.spawn` calls,
and a source of fresh promise identities. -/
structure ConnState where
  isConnected : Bool
  initializePromise : Option Nat
  spawns : Nat
  nextPromise : Nat
deriving Repr, DecidableEq

/-- What a `connect()` call returns to its caller. -/
inductive ConnectReturn where
  /-- Already connected: returned `undefined` immediately. -/
  | immediate
  /-- Returned the `initializePromise` with this identity. -/
  | promise (id : Nat)
deriving Repr, DecidableEq

/-- The guard structure of `connect()`: return immediately when
connected; return the in-flight promise when one exists; otherwise
build a new promise whose body spawns the child process, store it, and
return it.  (Clearing of `initializePromise` happens only in `close()`
and the process `close`/`exit`/`error` handlers, none of which occur in
a pure sequence of `connect()` calls.) -/
def connect (st : ConnState) : ConnState × ConnectReturn :=
  if st.isConnected then (st, .immediate)
  else match st.initializePromise with
  | some p => (st, .promise p)
  | none =>
    let p := st.nextPromise
    ({ st with initializePromise := some p, spawns := st.spawns + 1, nextPromise := p + 1 },
      .promise p)

/-- `n` successive `connect()` calls. -/
def connectMany : ConnState → Nat → ConnState
  | st, 0 => st
  | st, n + 1 => connectMany (connect st).1 n

/-! ## The protocol-version check

The repository carries two versions of the client.  The multi-transport
client (`PROTOCOL_VERSION = '2025-06-18'`) has

```
private isProtocolVersionSupported(version: string): boolean {
  // For now, we only support exact match
  // In the future, we could implement semver comparison
  return true;
}
```

while the earlier stdio client (`PROTOCOL_VERSION = '2024-11-05'`) has
`return version === PROTOCOL_VERSION;`.  In both, `connect` checks
`result.protocolVersion` from the `initialize` response and rejects the
handshake with `UnsupportedProtocolVersion` when the check fails.  The
check's argument is modelled as the optional JSON value found at
`result.protocolVersion`. -/

namespace V2025

def PROTOCOL_VERSION : String := "2025-06-18"

/-- The multi-transport client's check: returns `true` for any
argument. -/
def isProtocolVersionSupported (_version : Option Json) : Bool := true

/-- The version gate inside `connect`: reject with
`UnsupportedProtocolVersion` when the check fails, continue with the
result otherwise. -/
def handshakeVersionGate (result : Json) : Except Int Json :=
  if !isProtocolVersionSupported (Json.get result "protocolVersion") then
    .error ErrorCode.UnsupportedProtocolVersion
  else .ok result

end V2025

namespace V2024

def PROTOCOL_VERSION : String := "2024-11-05"

/-- The earlier stdio client's check: `version === PROTOCOL_VERSION`
(false for any non-string or absent value). -/
def isProtocolVersionSupported (version : Option Json) : Bool :=
  match version with
  | some (.str v) => v == PROTOCOL_VERSION
  | _ => false

/-- The version gate inside that client's `connect`. -/
def handshakeVersionGate (result : Json) : Except Int Json :=
  if !isProtocolVersionSupported (Json.get result "protocolVersion") then
    .error ErrorCode.UnsupportedProtocolVersion
  else .ok result

end V2024

/-! ## Concrete inputs used by witnesses and counterexamples -/

/-- A wrapped tool result in the style the unwrapping heuristic exists
for: `{ toolResults: { content: [ { type: "text", text: "ok" } ] } }`. -/
def wrappedOkResult : Json :=
  .obj [("toolResults",
    .obj [("content", .arr [.obj [("type", .str "text"), ("text", .str "ok")]])])]

/-- The canonical node inside `wrappedOkResult`. -/
def unwrappedOkResult : Json :=
  .obj [("content", .arr [.obj [("type", .str "text"), ("text", .str "ok")]])]

/-- The `echo` stdio server entry. -/
def echoEntry : McpServerEntry :=
  { type := some "stdio", command := some "node", args := ["echo-server.js"] }

/-- A settings document holding one stdio server named `echo`. -/
def echoSettings : McpSettings :=
  { mcpServers := [("echo", echoEntry)] }

/-- The `echo` tool descriptor as cached from `tools/list`, schema
verbatim. -/
def echoToolJson : Json :=
  .obj [("name", .str "echo"),
    ("inputSchema", .obj [("type", .str "object"),
      ("properties", .obj [("msg", .obj [("type", .str "string")])]),
      ("required", .arr [.str "echo"])])]

/-- `echoSettings` with the `echo` tool cached. -/
def echoSettingsCached : McpSettings :=
  { echoSettings with cachedTools := [("echo", .arr [echoToolJson])] }

/-- A stale document: no `mcpServers` entry named `x`, but a
`disabledTools` entry for it. -/
def staleSettings : McpSettings :=
  { disabledTools := [("x", ["t"])] }

/-! ## Structural facts about `findContentLevel` -/

/-- Any value returned by `findContentLevel` was reached from the input
by single-key descent steps, is not `null`, and admits no further
descent step. -/
theorem findContentLevel_val_descends :
    ∀ (fuel : Nat) (x y : Json), findContentLevel fuel x = .val y →
      Descends x y ∧ y ≠ .null ∧ descendStep y = none := by
  intro fuel
  induction fuel with
  | zero =>
    intro x y h
    simp [findContentLevel] at h
  | succ n ih =>
    intro x y h
    match x with
    | .null => simp [findContentLevel] at h
    | .bool b =>
      simp only [findContentLevel, JsOutcome.val.injEq] at h
      subst h
      exact ⟨Descends.refl _, by simp, rfl⟩
    | .num m =>
      simp only [findContentLevel, JsOutcome.val.injEq] at h
      subst h
      exact ⟨Descends.refl _, by simp, rfl⟩
    | .str s =>
      by_cases hs : s.length = 1
      · rw [show findContentLevel (n+1) (.str s) = findContentLevel n (.str s) by
          simp [findContentLevel, hs]] at h
        obtain ⟨hd, hy⟩ := ih _ _ h
        exact ⟨Descends.step (by simp [descendStep, hs]) hd, hy⟩
      · rw [show findContentLevel (n+1) (.str s) = .val (.str s) by
          simp [findContentLevel, hs]] at h
        obtain rfl := (JsOutcome.val.injEq _ _).mp h
        exact ⟨Descends.refl _, by simp, by simp [descendStep, hs]⟩
    | .arr elems =>
      match elems with
      | [] =>
        simp only [findContentLevel, JsOutcome.val.injEq] at h
        subst h
        exact ⟨Descends.refl _, by simp, rfl⟩
      | [x'] =>
        rw [show findContentLevel (n+1) (.arr [x']) = findContentLevel n x' from rfl] at h
        obtain ⟨hd, hy⟩ := ih _ _ h
        exact ⟨Descends.step (by simp [descendStep]) hd, hy⟩
      | x' :: x'' :: rest =>
        simp only [findContentLevel, JsOutcome.val.injEq] at h
        subst h
        exact ⟨Descends.refl _, by simp, rfl⟩
    | .obj members =>
      by_cases hc : (members.lookup "content").isSome
      · rw [show findContentLevel (n+1) (.obj members) = .val (.obj members) by
          simp [findContentLevel, hc]] at h
        obtain rfl := (JsOutcome.val.injEq _ _).mp h
        exact ⟨Descends.refl _, by simp, by simp [descendStep, hc]⟩
      · match members with
        | [] =>
          rw [show findContentLevel (n+1) (.obj []) = .val (.obj []) by
            simp [findContentLevel] at hc ⊢] at h
          obtain rfl := (JsOutcome.val.injEq _ _).mp h
          refine ⟨Descends.refl _, by simp, ?_⟩
          simp [descendStep] at hc ⊢
        | [(k, v)] =>
          rw [show findContentLevel (n+1) (.obj [(k, v)]) = findContentLevel n v by
            simp [findContentLevel, hc]] at h
          obtain ⟨hd, hy⟩ := ih _ _ h
          exact ⟨Descends.step (by simp [descendStep, hc]) hd, hy⟩
        | p :: q :: rest =>
          rw [show findContentLevel (n+1) (.obj (p :: q :: rest)) = .val (.obj (p :: q :: rest)) by
            simp [findContentLevel, hc]] at h
          obtain rfl := (JsOutcome.val.injEq _ _).mp h
          refine ⟨Descends.refl _, by simp, ?_⟩
          simp [descendStep, hc]

/-- A node at which no descent step applies (and which is not `null`)
is a fixed point of `findContentLevel` under any positive fuel. -/
theorem findContentLevel_fix (m : Nat) (y : Json)
    (hnull : y ≠ .null) (hstep : descendStep y = none) :
    findContentLevel (m + 1) y = .val y := by
  match y with
  | .null => exact absurd rfl hnull
  | .bool b => rfl
  | .num n => rfl
  | .str s =>
    have hs : ¬ s.length = 1 := by
      intro hs
      simp [descendStep, hs] at hstep
    simp [findContentLevel, hs]
  | .arr elems =>
    match elems with
    | [] => rfl
    | [x'] => simp [descendStep] at hstep
    | x' :: x'' :: rest => rfl
  | .obj members =>
    by_cases hc : (members.lookup "content").isSome
    · simp [findContentLevel, hc]
    · match members with
      | [] => simp [findContentLevel] at hc ⊢
      | [(k, v)] => simp [descendStep, hc] at hstep
      | p :: q :: rest => simp [findContentLevel, hc]

/-! ## Record lemmas -/

/-- After `delete obj[k]`, the record has no entry for `k`. -/
theorem lookup_jsRecordDelete_self {α : Type} (l : List (String × α)) (k : String) :
    (jsRecordDelete l k).lookup k = none := by
  induction l with
  | nil => rfl
  | cons p t ih =>
    obtain ⟨a, b⟩ := p
    by_cases h : a = k
    · subst h
      simpa [jsRecordDelete, List.filter_cons] using ih
    · have hb : (a != k) = true := bne_iff_ne.mpr h
      have hk : (k == a) = false := by
        simp [beq_eq_false_iff_ne]
        exact fun hk => h hk.symm
      simp only [jsRecordDelete, List.filter_cons, hb, if_true] at ih ⊢
      simp only [List.lookup_cons, hk]
      exact ih

/-- `delete obj[k]` leaves every other key's entry unchanged. -/
theorem lookup_jsRecordDelete_ne {α : Type} (l : List (String × α)) (k m : String)
    (h : m ≠ k) : (jsRecordDelete l k).lookup m = l.lookup m := by
  induction l with
  | nil => rfl
  | cons p t ih =>
    obtain ⟨a, b⟩ := p
    by_cases ha : a = k
    · subst ha
      have hm : (m == a) = false := beq_eq_false_iff_ne.mpr h
      simp only [jsRecordDelete, List.filter_cons, bne_self_eq_false, if_false,
        List.lookup_cons, hm] at ih ⊢
      exact ih
    · have hb : (a != k) = true := bne_iff_ne.mpr ha
      simp only [jsRecordDelete, List.filter_cons, hb, if_true] at ih ⊢
      by_cases hma : m = a
      · subst hma
        simp [List.lookup_cons]
      · have hm : (m == a) = false := beq_eq_false_iff_ne.mpr hma
        simp only [List.lookup_cons, hm]
        exact ih

/-! ## C1 — tools/call result unwrapping and waiter dispatch -/

/-- C1: For a matched `tools/call` response whose `result` the client
finishes unwrapping, the node handed to the waiter was reached by
descending through single-key values and can descend no further (in
particular descent stops at any `content` field); the waiter is
resolved with that node, except that a node with `isError: true`
rejects the waiter with an `InternalError` `McpError` whose message is
`result.content?.[0]?.text || 'Tool call failed'` (the first textual
content entry, with the fixed fallback) and whose data is the whole
node. -/
theorem tools_call_unwrap_dispatch (fuel : Nat) (res y : Json)
    (h : findContentLevel fuel res = .val y) :
    Descends res y ∧ (hasContent y = true ∨ descendStep y = none) ∧
    (Json.get y "isError" = some (.bool true) →
      handleToolCallResult fuel res =
        .reject ErrorCode.InternalError
          (Json.orElse (firstContentText y) (.str "Tool call failed")) y) ∧
    (Json.truthyOpt (Json.get y "isError") = false →
      handleToolCallResult fuel res = .resolve y) := by
  obtain ⟨hd, hnull, hstep⟩ := findContentLevel_val_descends fuel res y h
  refine ⟨hd, Or.inr hstep, ?_, ?_⟩
  · intro hie
    simp [handleToolCallResult, h, hie, Json.truthyOpt, Json.truthy]
  · intro hie
    simp [handleToolCallResult, h, hie]

/-- C1 witness: the documented MemoryMesh-style wrapping
`{ toolResults: { content: [...] } }` resolves to the inner
`{ content: [...] }` node. -/
theorem tools_call_unwrap_dispatch_witness :
    handleToolCallResult 2 wrappedOkResult = .resolve unwrappedOkResult :=
  (tools_call_unwrap_dispatch 2 wrappedOkResult unwrappedOkResult rfl).2.2.2 rfl

/-! ## C5 — termination and idempotence of the unwrapping function -/

/-- C5 counterexample: `findContentLevel` does not terminate on every
JSON value: on the one-character string `"a"` (its own single
`Object.keys` entry indexes the same string) no amount of fuel makes it
return. -/
theorem unwrap_not_total_on_singleton_string : ¬ Unwraps (Json.str "a") := by
  have hdiv : ∀ n, findContentLevel n (Json.str "a") = .outOfFuel := by
    intro n
    induction n with
    | zero => rfl
    | succ k ih =>
      have h1 : ("a" : String).length = 1 := rfl
      simp [findContentLevel, h1, ih]
  rintro ⟨n, y, hy⟩
  rw [hdiv n] at hy
  exact JsOutcome.noConfusion hy

/-- C5 (amended): wherever the unwrapping function terminates it is
idempotent — a value it returns is returned unchanged by any further
run with positive fuel, so `unwrap (unwrap x) = unwrap x` on the
domain of `unwrap`. -/
theorem findContentLevel_idempotent (n m : Nat) (x y : Json)
    (h : findContentLevel n x = .val y) :
    findContentLevel (m + 1) y = .val y := by
  obtain ⟨_, hnull, hstep⟩ := findContentLevel_val_descends n x y h
  exact findContentLevel_fix m y hnull hstep

/-- C5 witness: unwrapping `{ a: {} }` yields `{}`, on which a rerun is
the identity. -/
theorem findContentLevel_idempotent_witness :
    findContentLevel 1 (Json.obj []) = .val (Json.obj []) :=
  findContentLevel_idempotent 2 0 (Json.obj [("a", Json.obj [])]) (Json.obj []) rfl

/-! ## C2 — POST /servers on a duplicate name -/

/-- C2: the duplicate-name branch of `POST /servers` sends the 409
response but, lacking a `return`, falls through to the assignment and
the settings write: at a document already holding `echo`, posting a new
`echo` config yields status 409 **and** one `writeMcpSettings` call
that has replaced the stored entry with the new config. -/
theorem postServers_duplicate_overwrites :
    (postServersRoute (some "echo") (some { command := some "node2" }) echoSettings).status
        = 409 ∧
    (postServersRoute (some "echo") (some { command := some "node2" }) echoSettings).writes
        = 1 ∧
    (postServersRoute (some "echo") (some { command := some "node2" })
        echoSettings).settings.mcpServers.lookup "echo"
        = some { command := some "node2" } ∧
    ({ command := some "node2" } : McpServerEntry) ≠ echoEntry := by
  refine ⟨rfl, rfl, rfl, ?_⟩
  decide

/-! ## C3 — call-tool with schema-invalid arguments -/

/-- C3 counterexample: the S2 scenario (`echo` running and cached,
arguments `{msg: 42}` failing the schema) yields HTTP 500 whose `code`
is `InternalError` (−32603), not `InvalidParams` (−32602): the
validator's throw is a jsonschema `ValidationError`, which is not an
`McpError`, so the handler's catch uses the generic branch. -/
theorem callTool_schema_reject_code_internal :
    callToolRoute true echoSettingsCached "echo" (some "echo")
        (some (.obj [("msg", .num 42)])) (fun _ _ => false) (.ok (.obj []))
      = ⟨500, some ErrorCode.InternalError, false⟩ ∧
    ErrorCode.InternalError ≠ ErrorCode.InvalidParams := by
  refine ⟨rfl, ?_⟩
  decide

/-- C3 (amended): for every call-tool request on a running server whose
arguments are rejected by the schema validator (with the request
otherwise well-formed: nonempty tool name, object arguments, tool
enabled and found in the cache), the `tools/call` request is not sent
and the response is status 500 with code −32603 (`InternalError`). -/
theorem callTool_invalid_args_internal_error (s : McpSettings) (name toolName : String)
    (args : Json) (validate : Json → Option Json → Bool) (rpc : Except Int Json)
    (tool : Json)
    (htn : toolName ≠ "")
    (hargs : jsIsNonNullObject args = true)
    (hdis : ((s.disabledTools.lookup name).getD []).contains toolName = false)
    (htool : findCachedTool (s.cachedTools.lookup name) toolName = some tool)
    (hval : validate args (Json.get tool "inputSchema") = false) :
    callToolRoute true s name (some toolName) (some args) validate rpc
      = ⟨500, some ErrorCode.InternalError, false⟩ := by
  have hdis' : toolName ∉ (s.disabledTools.lookup name).getD [] := by
    simpa using hdis
  simp [callToolRoute, htn, hargs, hdis', htool, hval]

/-- C3 witness: the amended statement applied to the S2 scenario (with
a distinct rpc oracle, to show the rpc outcome is never consulted). -/
theorem callTool_invalid_args_internal_error_witness :
    callToolRoute true echoSettingsCached "echo" (some "echo")
        (some (.obj [("msg", .num 42)])) (fun _ _ => false) (.error (-32050))
      = ⟨500, some ErrorCode.InternalError, false⟩ :=
  callTool_invalid_args_internal_error echoSettingsCached "echo" "echo"
    (.obj [("msg", .num 42)]) (fun _ _ => false) (.error (-32050)) echoToolJson
    (by decide) rfl rfl rfl rfl

/-! ## C4 — start on an already-running name -/

/-- C4 counterexample: with `echo` already in the client registry,
`startMcpServer("echo", …)` returns **normally** (there is no
`AlreadyRunning` error in the source — the guard logs a warning and
returns), so the call does not fail as claimed; it merely leaves the
registry alone and constructs nothing. -/
theorem start_already_running_not_an_error :
    startMcpServer [("echo", 1)] "echo" echoEntry 2 true
      = ⟨[("echo", 1)], false, false, none⟩ ∧
    (startMcpServer [("echo", 1)] "echo" echoEntry 2 true).error = none := by
  exact ⟨rfl, rfl⟩

/-- C4 (amended): for every registry already holding the name,
`startMcpServer` returns successfully without error, constructs no
client, runs no handshake, and leaves the registry exactly as it
was. -/
theorem start_already_running_noop (reg : List (String × Nat)) (serverName : String)
    (config : McpServerEntry) (newClient : Nat) (connectOk : Bool)
    (h : (reg.lookup serverName).isSome) :
    startMcpServer reg serverName config newClient connectOk
      = ⟨reg, false, false, none⟩ := by
  simp [startMcpServer, h]

/-- C4 witness: the amended statement at a concrete one-entry
registry. -/
theorem start_already_running_noop_witness :
    startMcpServer [("srv", 7)] "srv" { command := some "node" } 9 false
      = ⟨[("srv", 7)], false, false, none⟩ :=
  start_already_running_noop [("srv", 7)] "srv" { command := some "node" } 9 false rfl

/-! ## C6 — the protocol-version support check -/

/-- C6 counterexample: the repository's earlier stdio client checks
`version === '2024-11-05'`, so for the version string `"2025-06-18"`
the check returns `false` and the handshake's rejection branch fires
with `UnsupportedProtocolVersion` (−32002): the check does not return
true for every version string, and the −32002 branch is reachable. -/
theorem version_check_2024_rejects :
    V2024.isProtocolVersionSupported (some (.str "2025-06-18")) = false ∧
    V2024.handshakeVersionGate (.obj [("protocolVersion", .str "2025-06-18")])
      = .error ErrorCode.UnsupportedProtocolVersion := by
  exact ⟨rfl, rfl⟩

/-- C6 (amended): in the multi-transport client the check returns true
for every argument, so its `UnsupportedProtocolVersion` branch is
unreachable and that handshake never fails with −32002; the earlier
stdio client accepts exactly `"2024-11-05"` and rejects every other
version string with −32002. -/
theorem version_check_2025_accepts_all (version : Option Json) (result : Json)
    (v : String) (hv : v ≠ V2024.PROTOCOL_VERSION) :
    V2025.isProtocolVersionSupported version = true ∧
    V2025.handshakeVersionGate result = .ok result ∧
    V2024.isProtocolVersionSupported (some (.str V2024.PROTOCOL_VERSION)) = true ∧
    V2024.handshakeVersionGate (.obj [("protocolVersion", .str v)])
      = .error ErrorCode.UnsupportedProtocolVersion := by
  refine ⟨rfl, rfl, by simp [V2024.isProtocolVersionSupported], ?_⟩
  simp [V2024.handshakeVersionGate, V2024.isProtocolVersionSupported, Json.get,
    List.lookup_cons, hv]

/-- C6 witness: the amended statement at the 2025 protocol version. -/
theorem version_check_2025_accepts_all_witness :
    V2025.isProtocolVersionSupported (some (.str "draft")) = true ∧
    V2025.handshakeVersionGate (.obj []) = .ok (.obj []) ∧
    V2024.isProtocolVersionSupported (some (.str V2024.PROTOCOL_VERSION)) = true ∧
    V2024.handshakeVersionGate (.obj [("protocolVersion", .str "2026-01-01")])
      = .error ErrorCode.UnsupportedProtocolVersion :=
  version_check_2025_accepts_all (some (.str "draft")) (.obj []) "2026-01-01" (by decide)

/-! ## C7 — DELETE /servers/:name and the settings frame -/

/-- C7 counterexample: on a stale document with no `mcpServers["x"]`
but a `disabledTools["x"]` entry, `DELETE /servers/x` writes nothing
and the persisted document still holds `disabledTools["x"]`, contrary
to the claim that after the operation no such entry remains. -/
theorem delete_stale_disabled_tools_survive :
    (deleteServerRoute "x" staleSettings).settings.disabledTools.lookup "x" = some ["t"] ∧
    (deleteServerRoute "x" staleSettings).writes = 0 ∧
    some ["t"] ≠ (none : Option (List String)) := by
  refine ⟨rfl, rfl, ?_⟩
  decide

/-- C7 (amended): whenever `mcpServers[n]` exists, the handler deletes
the three per-name entries and rewrites the document: afterwards it has
no `mcpServers[n]`, no `disabledTools[n]` and no `cachedTools[n]`,
while `disabledServers` and every other name's entries are exactly as
before.  (When `mcpServers[n]` is absent nothing is written, so stale
`disabledTools[n]`/`cachedTools[n]` entries survive.) -/
theorem delete_server_frame (s : McpSettings) (n : String)
    (h : (s.mcpServers.lookup n).isSome) :
    (deleteServerRoute n s).settings.mcpServers.lookup n = none ∧
    (deleteServerRoute n s).settings.disabledTools.lookup n = none ∧
    (deleteServerRoute n s).settings.cachedTools.lookup n = none ∧
    (deleteServerRoute n s).settings.disabledServers = s.disabledServers ∧
    (∀ m, m ≠ n →
      (deleteServerRoute n s).settings.mcpServers.lookup m = s.mcpServers.lookup m ∧
      (deleteServerRoute n s).settings.disabledTools.lookup m = s.disabledTools.lookup m ∧
      (deleteServerRoute n s).settings.cachedTools.lookup m = s.cachedTools.lookup m) := by
  simp only [deleteServerRoute, h, if_true]
  refine ⟨lookup_jsRecordDelete_self _ _, lookup_jsRecordDelete_self _ _,
    lookup_jsRecordDelete_self _ _, by trivial, ?_⟩
  intro m hm
  exact ⟨lookup_jsRecordDelete_ne _ _ _ hm, lookup_jsRecordDelete_ne _ _ _ hm,
    lookup_jsRecordDelete_ne _ _ _ hm⟩

/-- C7 witness: deleting `echo` from a document that also carries a
second server's entries removes exactly the `echo` entries. -/
theorem delete_server_frame_witness :
    (deleteServerRoute "echo" echoSettings).settings.mcpServers.lookup "echo" = none ∧
    (deleteServerRoute "echo" echoSettings).settings.disabledTools.lookup "echo" = none ∧
    (deleteServerRoute "echo" echoSettings).settings.cachedTools.lookup "echo" = none ∧
    (deleteServerRoute "echo" echoSettings).settings.disabledServers
      = echoSettings.disabledServers ∧
    (∀ m, m ≠ "echo" →
      (deleteServerRoute "echo" echoSettings).settings.mcpServers.lookup m
        = echoSettings.mcpServers.lookup m ∧
      (deleteServerRoute "echo" echoSettings).settings.disabledTools.lookup m
        = echoSettings.disabledTools.lookup m ∧
      (deleteServerRoute "echo" echoSettings).settings.cachedTools.lookup m
        = echoSettings.cachedTools.lookup m) :=
  delete_server_frame echoSettings "echo" rfl

/-! ## C8 — reloadToolCache preserves running status and, on failure, the cache -/

/-- C8: `reloadToolCache` leaves the is-running status of the server
exactly as it found it (on every path), calls `stopMcpServer` exactly
when it started the server temporarily itself, and when the
`listTools` step fails it performs no settings write, so
`cachedTools[n]` (indeed the whole persisted document) retains its
prior value. -/
theorem reloadToolCache_frame (running0 : Bool) (s : McpSettings) (serverName : String)
    (startOk : Bool) (listResult : Except Int Json) :
    (reloadToolCache running0 s serverName startOk listResult).running = running0 ∧
    ((reloadToolCache running0 s serverName startOk listResult).stopCalls
      = if running0 then 0 else if startOk then 1 else 0) ∧
    (∀ e, listResult = .error e →
      (reloadToolCache running0 s serverName startOk listResult).settings = s ∧
      (reloadToolCache running0 s serverName startOk listResult).writes = 0) := by
  cases running0 <;> cases startOk <;> rcases listResult with e | tools <;>
    simp [reloadToolCache]

/-- C8 witness: a temporary start whose `listTools` rejects leaves the
server stopped (as it was), the document unwritten, and counts one
cleanup stop. -/
theorem reloadToolCache_frame_witness :
    (reloadToolCache false echoSettings "echo" true (.error (-32001))).settings
        = echoSettings ∧
    (reloadToolCache false echoSettings "echo" true (.error (-32001))).writes = 0 :=
  (reloadToolCache_frame false echoSettings "echo" true (.error (-32001))).2.2
    (-32001) rfl

/-! ## C9 — request ids are 1, 2, 3, … per client -/

/-- C9: the ids allocated by successive `sendRequest` calls of a fresh
client are exactly `[1, 2, …, n]` — the k-th request carries id k — and
are strictly increasing. -/
theorem sendRequest_ids_from_one (methods : List String) :
    sendIds initialClientState methods = List.range' 1 methods.length ∧
    List.Pairwise (· < ·) (sendIds initialClientState methods) := by
  have key : ∀ (ms : List String) (st : ClientState),
      sendIds st ms = List.range' (st.requestId + 1) ms.length := by
    intro ms
    induction ms with
    | nil => intro st; rfl
    | cons m t ih =>
      intro st
      simp [sendIds, sendRequest, ih, List.range'_succ]
  refine ⟨key methods initialClientState, ?_⟩
  rw [key methods initialClientState]
  exact List.pairwise_lt_range' _ _

/-! ## C10 — connect() is idempotent and spawns at most once -/

/-- C10: `connect()` on a connected client returns immediately and
changes nothing; `connect()` while a handshake is in flight returns the
same in-flight `initializePromise` and changes nothing; hence any
sequence of `connect()` calls (with no intervening close or process
exit) spawns at most one child process beyond what was already
spawned. -/
theorem connect_idempotent :
    (∀ st : ConnState, st.isConnected = true → connect st = (st, .immediate)) ∧
    (∀ (st : ConnState) (p : Nat), st.isConnected = false →
      st.initializePromise = some p → connect st = (st, .promise p)) ∧
    (∀ (st : ConnState) (n : Nat), (connectMany st n).spawns ≤ st.spawns + 1) := by
  have hconn : ∀ st : ConnState, st.isConnected = true → connect st = (st, .immediate) := by
    intro st h
    simp [connect, h]
  have hflight : ∀ (st : ConnState) (p : Nat), st.isConnected = false →
      st.initializePromise = some p → connect st = (st, .promise p) := by
    intro st p h hp
    simp [connect, h, hp]
  have hstable : ∀ (st : ConnState) (n : Nat),
      st.isConnected = true ∨ st.initializePromise.isSome → connectMany st n = st := by
    intro st n
    induction n generalizing st with
    | zero => intro _; rfl
    | succ k ih =>
      intro h
      have hst : (connect st).1 = st := by
        rcases h with h | h
        · rw [hconn st h]
        · rcases Option.isSome_iff_exists.mp h with ⟨p, hp⟩
          cases hc : st.isConnected
          · rw [hflight st p hc hp]
          · rw [hconn st hc]
      rw [show connectMany st (k + 1) = connectMany (connect st).1 k from rfl, hst]
      exact ih st h
  refine ⟨hconn, hflight, ?_⟩
  intro st n
  cases n with
  | zero => exact Nat.le_succ_of_le (Nat.le_refl _)
  | succ k =>
    rw [show connectMany st (k + 1) = connectMany (connect st).1 k from rfl]
    by_cases hc : st.isConnected = true
    · have hst : (connect st).1 = st := by rw [hconn st hc]
      rw [hst, hstable st k (Or.inl hc)]
      exact Nat.le_succ_of_le (Nat.le_refl _)
    · have hc' : st.isConnected = false := by
        cases h : st.isConnected
        · rfl
        · exact absurd h hc
      cases hp : st.initializePromise with
      | some p =>
        have hst : (connect st).1 = st := by rw [hflight st p hc' hp]
        rw [hst, hstable st k (Or.inr (by rw [hp]; rfl))]
        exact Nat.le_succ_of_le (Nat.le_refl _)
      | none =>
        have h1 : (connect st).1.initializePromise.isSome = true := by
          simp [connect, hc', hp]
        have h2 : (connect st).1.spawns = st.spawns + 1 := by
          simp [connect, hc', hp]
        rw [hstable _ k (Or.inr h1), h2]

/-- C10 witness: a connected client's `connect()` is a no-op, and ten
calls from a fresh client spawn at most one process. -/
theorem connect_idempotent_witness :
    connect ⟨true, none, 1, 2⟩ = (⟨true, none, 1, 2⟩, .immediate) ∧
    (connectMany ⟨false, none, 0, 1⟩ 10).spawns ≤ 0 + 1 :=
  ⟨connect_idempotent.1 ⟨true, none, 1, 2⟩ rfl,
    connect_idempotent.2.2 ⟨false, none, 0, 1⟩ 10⟩

end Mcp
